import Mathlib

/-!
Verification of the mlpack neighbor-search core (NeighborSearchLeaf wrapper,
NSModel polymorphic model, SpillSearch spill-tree variant) against its
natural-language specification.  Matrices follow armadillo's column-major
layout: a matrix is its list of columns; point sets store one point per
column.  C++ doubles are idealized as rationals; the properties proved here
are control-flow and bookkeeping properties that do not depend on rounding.
-/

namespace MlpackNS

/-- One column of an `arma::mat`: a list of rational entries. -/
abbrev Col := List ℚ

/-- A dense `arma::mat` as its list of columns (column-major layout). -/
abbrev Mat := List Col

/-- One column of an `arma::Mat<size_t>` of neighbor indices. -/
abbrev IdxCol := List Nat

/-- An `arma::Mat<size_t>` of neighbor indices, as its list of columns. -/
abbrev IdxMat := List IdxCol

/-- Number of rows of a matrix-as-column-list (`n_rows`): the length of its
first column, `0` for a matrix with no columns. -/
def nRows (m : Mat) : Nat := (m.head?.map List.length).getD 0

/-- Entry `i` of the product of matrix `a` with one column `v`: the columns of
`a` are paired with the entries of `v` and summed (armadillo `operator*`,
idealized over ℚ). -/
def matVecEntry (a : Mat) (v : Col) (i : Nat) : ℚ :=
  (List.zip a v).foldl (fun acc p => acc + p.1.getD i 0 * p.2) 0

/-- Product of matrix `a` with one column `v`. -/
def matVecMul (a : Mat) (v : Col) : Col :=
  (List.range (nRows a)).map (matVecEntry a v)

/-- Matrix product `a * b` on matrices-as-column-lists: `a` is applied to each
column of `b`. -/
def matMul (a b : Mat) : Mat := b.map (matVecMul a)

/-- The parts of the search pipeline that live outside the wrapper's own
sources: the tree constructor (which reorders points and reports the
permutation `oldFromNew`) and the inner `NeighborSearch` engine's search
routines.  The wrapper is proved correct for every choice of these, so
nothing about their behavior is assumed. -/
structure DualOracle (Tree : Type) where
  buildTree : Mat → Nat → Tree × List Nat
  searchTree : Tree → Nat → IdxMat × Mat
  searchMat : Mat → Nat → IdxMat × Mat

/-- The unmap loop of `NeighborSearchLeaf::Search`: for each column index `i`
of the raw traversal output, write that column at position `oldFromNew[i]` of
the output matrix (`neighbors.col(oldFromNewQueries[i]) = neighborsOut.col(i)`). -/
def unmapLoop {α : Type} : List Nat → List α → List α → List α
  | _, [], out => out
  | [], _ :: _, out => out
  | j :: js, c :: cs, out => unmapLoop js cs (out.set j c)

/-- Embedding of `NeighborSearchLeaf::Search(querySet, k, neighbors, distances)`: when
neither naive nor single mode, build a transient query-side tree recording
`oldFromNewQueries`, run the dual traversal into temporary matrices, size the
outputs (`set_size` leaves entries unspecified, modeled as empty columns) and
unmap column `i` of the raw output into column `oldFromNewQueries[i]`;
otherwise delegate directly to the engine. -/
def leafSearch {Tree : Type} (o : DualOracle Tree) (naive singleMode : Bool)
    (leafSize : Nat) (querySet : Mat) (k : Nat) : IdxMat × Mat :=
  if !naive && !singleMode then
    let bt := o.buildTree querySet leafSize
    let oldFromNewQueries := bt.2
    let res := o.searchTree bt.1 k
    let neighborsOut := res.1
    let distancesOut := res.2
    (unmapLoop oldFromNewQueries neighborsOut (List.replicate neighborsOut.length []),
     unmapLoop oldFromNewQueries distancesOut (List.replicate distancesOut.length []))
  else
    o.searchMat querySet k

theorem unmapLoop_length {α : Type} (js : List Nat) (cs out : List α) :
    (unmapLoop js cs out).length = out.length := by
  induction js generalizing cs out with
  | nil => cases cs <;> simp [unmapLoop]
  | cons j js ih =>
      cases cs with
      | nil => simp [unmapLoop]
      | cons c cs => simp [unmapLoop, ih]

theorem unmapLoop_getElem_notMem {α : Type} (js : List Nat) (cs out : List α)
    (j : Nat) (hj : j ∉ js) :
    (unmapLoop js cs out)[j]? = out[j]? := by
  induction js generalizing cs out with
  | nil => cases cs <;> simp [unmapLoop]
  | cons j' js ih =>
      cases cs with
      | nil => simp [unmapLoop]
      | cons c cs =>
          have hne : j' ≠ j := fun h => hj (h ▸ List.mem_cons_self j' js)
          have hj' : j ∉ js := fun h => hj (List.mem_cons_of_mem _ h)
          simp only [unmapLoop]
          rw [ih _ _ hj', List.getElem?_set_ne hne]

theorem unmapLoop_getElem {α : Type} (js : List Nat) (cs out : List α)
    (hnd : js.Nodup) (hlen : js.length = cs.length)
    (hran : ∀ j ∈ js, j < out.length) :
    ∀ i, ∀ hi : i < js.length,
      (unmapLoop js cs out)[js[i]]? = cs[i]? := by
  induction js generalizing cs out with
  | nil => intro i hi; simp at hi
  | cons j js ih =>
      cases cs with
      | nil => simp at hlen
      | cons c cs =>
          intro i hi
          cases i with
          | zero =>
              have hj : j ∉ js := (List.nodup_cons.mp hnd).1
              simp only [unmapLoop, List.getElem_cons_zero]
              rw [unmapLoop_getElem_notMem js cs _ j hj,
                  List.getElem?_set_eq_of_lt]
              · simp
              · exact hran j (List.mem_cons_self j js)
          | succ i =>
              have hnd' : js.Nodup := (List.nodup_cons.mp hnd).2
              have hlen' : js.length = cs.length := by
                simpa using hlen
              have hran' : ∀ x ∈ js, x < (out.set j c).length := by
                intro x hx
                simpa using hran x (List.mem_cons_of_mem _ hx)
              have hi' : i < js.length := by simpa using hi
              simp only [unmapLoop, List.getElem_cons_succ, List.getElem?_cons_succ]
              exact ih cs (out.set j c) hnd' hlen' hran' i hi'

/-- A C++ matrix object as seen by the caller: its payload plus a flag telling
whether it has been moved from (its storage stolen). -/
structure CppMat where
  data : Mat
  movedFrom : Bool
deriving DecidableEq

/-- Handing a matrix to the tree constructor, following C++ overload
resolution: `std::move` applied to a `const MatType&` yields a const rvalue,
which cannot bind to the constructor's non-const `MatType&&` overload, so the
copying overload is selected and the source object is left untouched.
`constRef = true` models a const source (the wrapper's `querySet` parameter);
a non-const source would be moved from. -/
def treeCtorTake (constRef : Bool) (m : CppMat) : Mat × CppMat :=
  if constRef then (m.data, m)
  else (m.data, { m with movedFrom := true })

/-- Embedding of `NeighborSearchLeaf::Search(querySet, ...)` tracking the caller's query
matrix object: the dual branch passes `std::move(querySet)` to the transient
query-tree constructor, but `querySet` is a `const MatType&`, so
`treeCtorTake` is invoked with `constRef = true`; the pair returned is the
search result together with the caller's matrix after the call. -/
def leafSearchFrame {Tree : Type} (o : DualOracle Tree) (naive singleMode : Bool)
    (leafSize : Nat) (querySet : CppMat) (k : Nat) : (IdxMat × Mat) × CppMat :=
  if !naive && !singleMode then
    let taken := treeCtorTake true querySet
    let bt := o.buildTree taken.1 leafSize
    let res := o.searchTree bt.1 k
    ((unmapLoop bt.2 res.1 (List.replicate res.1.length []),
      unmapLoop bt.2 res.2 (List.replicate res.2.length [])), taken.2)
  else
    (o.searchMat querySet.data k, querySet)

/-- State of the underlying `NeighborSearch` engine, as far as the wrapper
manipulates it.  The engine's own `Train` routines are not under the sources
verified here; they are modelled from the spec: `Train` accepts ownership of
the reference data, either raw points (naive) or a pre-built index handle, and
a structure supplied externally is borrowed, never owned, until the wrapper
itself sets the ownership flag. -/
structure LeafEngineState (Tree : Type) where
  naive : Bool
  singleMode : Bool
  referenceTree : Option Tree
  rawReference : Option Mat
  treeOwner : Bool
  oldFromNewReferences : List Nat

/-- Modelled from the spec: `NeighborSearch::Train(Tree*)` stores the supplied
pre-built index handle; ownership remains with the caller (the ownership flag
is not set here). -/
def nsTrainTree {Tree : Type} (s : LeafEngineState Tree) (t : Tree) :
    LeafEngineState Tree :=
  { s with referenceTree := some t, rawReference := none, treeOwner := false }

/-- Modelled from the spec: `NeighborSearch::Train(MatType&&)` in naive mode
stores the raw points; no index structure is built and no permutation is
produced. -/
def nsTrainMat {Tree : Type} (s : LeafEngineState Tree) (m : Mat) :
    LeafEngineState Tree :=
  { s with rawReference := some m, referenceTree := none }

/-- Embedding of `NeighborSearchLeaf::Train(referenceSet)`: when not in naive mode, build an
index tree from the reference set with the configured leaf size (the
constructor reports the permutation `oldFromNewRef`), hand the tree to the
engine, then mark the engine as owner and store the permutation in it; in
naive mode train the engine directly on the raw points. -/
def leafTrain {Tree : Type} (buildRef : Mat → Nat → Tree × List Nat)
    (leafSize : Nat) (s : LeafEngineState Tree) (referenceSet : Mat) :
    LeafEngineState Tree :=
  if !s.naive then
    let bt := buildRef referenceSet leafSize
    let s' := nsTrainTree s bt.1
    { s' with treeOwner := true, oldFromNewReferences := bt.2 }
  else
    nsTrainMat s referenceSet

/-- A spill tree as the `SpillSearch` wrapper constructs it: the dataset it is
built from together with the overlap radius `tau` passed to its constructor
(`Tree(data, tau)`); the tree's internal build is outside the verified
sources, but every call site in them fixes these two arguments. -/
structure SpillTree where
  data : Mat
  tau : ℚ
deriving DecidableEq

/-- State of a `SpillSearch` object: its mode flags, the overlap radius, and
the reference data held by the inner `neighborSearch` engine (`ReferenceSet()`
returns it; modelled from the spec: the engine's reference-set accessor
returns the trained reference set).  `referenceTree`/`treeOwner` mirror the
engine's stored tree handle and ownership flag. -/
structure SpillSearchState where
  naive : Bool
  singleMode : Bool
  tau : ℚ
  referenceSet : Mat
  referenceTree : Option SpillTree
  treeOwner : Bool

/-- Embedding of `SpillSearch::Train(const MatType&)`: naive mode trains the engine on the
raw points; otherwise a reference tree is built with the object's own `tau`
and the engine is given ownership of it. -/
def spillTrainMat (s : SpillSearchState) (referenceSet : Mat) : SpillSearchState :=
  if s.naive then
    { s with referenceSet := referenceSet, referenceTree := none }
  else
    { s with referenceSet := referenceSet,
             referenceTree := some ⟨referenceSet, s.tau⟩,
             treeOwner := true }

/-- Embedding of `SpillSearch::Train(Tree*)`: the pre-built tree is handed to the engine;
ownership stays with the caller. -/
def spillTrainTree (s : SpillSearchState) (t : SpillTree) : SpillSearchState :=
  { s with referenceSet := t.data, referenceTree := some t }

/-- The delegation a `SpillSearch::Search` overload performs on the inner
`neighborSearch` engine: a direct matrix search, a dual search against an
explicitly built query tree (`sameSet` is the final `true` argument of the
self-search path), or the engine's plain self-search. -/
inductive SpillCall where
  | searchMat (querySet : Mat) (k : Nat)
  | searchTree (queryTree : SpillTree) (k : Nat) (sameSet : Bool)
  | searchSelf (k : Nat)
deriving DecidableEq

/-- Embedding of `SpillSearch::Search(querySet, k, ...)`: naive or single mode delegates
directly; otherwise a query tree is built with `tau = 0` (`Tree queryTree(querySet, 0)`)
and the dual search runs against it. -/
def spillSearchQuery (s : SpillSearchState) (querySet : Mat) (k : Nat) : SpillCall :=
  if s.naive || s.singleMode then
    .searchMat querySet k
  else
    .searchTree ⟨querySet, 0⟩ k false

/-- Embedding of `SpillSearch::Search(k, ...)` (self-search): with `tau == 0`, naive or
single mode it delegates to the engine's plain self-search; otherwise it
builds a fresh query tree from `ReferenceSet()` with `tau = 0` and runs the
dual search with the same-set flag. -/
def spillSearchSelf (s : SpillSearchState) (k : Nat) : SpillCall :=
  if s.tau = 0 || s.naive || s.singleMode then
    .searchSelf k
  else
    .searchTree ⟨s.referenceSet, 0⟩ k true

/-- Fields of a freshly constructed `SpillSearch` before any training: the
member initializer list stores the flags and `tau`; no reference data yet. -/
def spillInit (naive singleMode : Bool) (tau : ℚ) : SpillSearchState :=
  ⟨naive, singleMode, tau, [], none, false⟩

/-- Embedding of `SpillSearch(const MatType&, naive, singleMode, tau, ...)`: after member
initialization, throw `std::invalid_argument` when `tau < 0`, else train on
the reference set. -/
def spillMkFromMat (referenceSet : Mat) (naive singleMode : Bool) (tau : ℚ) :
    Except String SpillSearchState :=
  if tau < 0 then .error "tau must be non-negative"
  else .ok (spillTrainMat (spillInit naive singleMode tau) referenceSet)

/-- Embedding of `SpillSearch(MatType&&, naive, singleMode, tau, ...)`: identical to the
copying constructor in this pure model (the move only avoids a copy). -/
def spillMkFromMatMove (referenceSet : Mat) (naive singleMode : Bool) (tau : ℚ) :
    Except String SpillSearchState :=
  if tau < 0 then .error "tau must be non-negative"
  else .ok (spillTrainMat (spillInit naive singleMode tau) referenceSet)

/-- Embedding of `SpillSearch(Tree*, singleMode, tau, ...)`: after member initialization
(this overload has no naive flag), throw when `tau < 0`, else train on the
pre-built tree. -/
def spillMkFromTree (referenceTree : SpillTree) (singleMode : Bool) (tau : ℚ) :
    Except String SpillSearchState :=
  if tau < 0 then .error "tau must be non-negative"
  else .ok (spillTrainTree (spillInit false singleMode tau) referenceTree)

/-- Embedding of `SpillSearch(naive, singleMode, tau, ...)` (no reference set): throw when
`tau < 0`, else leave the object untrained. -/
def spillMkEmpty (naive singleMode : Bool) (tau : ℚ) :
    Except String SpillSearchState :=
  if tau < 0 then .error "tau must be non-negative"
  else .ok (spillInit naive singleMode tau)

/-- The six values of `NSModel::TreeTypes`, the closed discriminant selecting
a concrete engine type. -/
inductive TreeTypes where
  | kdTree | coverTree | rTree | rStarTree | ballTree | xTree
deriving DecidableEq

/-- A concrete engine as `NSModel` uses it through the abstract
`NeighborSearchGen` pointer: its actual concrete type (`tag`), the reference
set it was trained on, and its two search routines.  The engine internals are
outside the verified sources; the model is proved correct for every engine. -/
structure EngineOps where
  tag : TreeTypes
  referenceSet : Mat
  searchQ : Mat → Nat → IdxMat × Mat
  searchSelf : Nat → IdxMat × Mat

/-- State of an `NSModel`: the discriminant, the random-basis flag, the basis
matrix `q` (an `arma::mat`, default-constructed empty) and the owned engine
pointer (`NULL` until `BuildModel`). -/
structure NSModelState where
  treeType : TreeTypes
  randomBasis : Bool
  q : Mat
  nSearch : Option EngineOps

/-- Embedding of `NSModel::Search(querySet, k, neighbors, distances)`: first, when
`randomBasis` is set, overwrite the query set with `q * querySet`; only then
test the engine pointer, delegating when it is non-null and throwing
`"no neighbor search model initialized"` otherwise.  The returned pair is the
outcome together with the caller's query matrix after the call (the parameter
is an `arma::mat&&`, so the overwrite is visible to the caller's object). -/
def nsModelSearchQuery (s : NSModelState) (querySet : Mat) (k : Nat) :
    Except String (IdxMat × Mat) × Mat :=
  let querySet := if s.randomBasis then matMul s.q querySet else querySet
  match s.nSearch with
  | some e => (.ok (e.searchQ querySet k), querySet)
  | none => (.error "no neighbor search model initialized", querySet)

/-- Embedding of `NSModel::Search(k, neighbors, distances)` (self-search): delegate when
the engine pointer is non-null, else throw. -/
def nsModelSearchSelf (s : NSModelState) (k : Nat) :
    Except String (IdxMat × Mat) :=
  match s.nSearch with
  | some e => .ok (e.searchSelf k)
  | none => .error "no neighbor search model initialized"

/-- Embedding of `NSModel::Dataset()`: return the engine's reference set when the engine
pointer is non-null, else throw. -/
def nsModelDataset (s : NSModelState) : Except String Mat :=
  match s.nSearch with
  | some e => .ok e.referenceSet
  | none => .error "no neighbor search model initialized"

/-- The serialization name keyed by the sort-policy direction
(`NSModelName<SortPolicy>::Name()`). -/
def nsModelName (nearest : Bool) : String :=
  if nearest then "nearest_neighbor_search_model"
  else "furthest_neighbor_search_model"

/-- What the save path of `NSModel::Serialize` writes for the engine: the NVP
name and the concrete type the abstract pointer was cast to before being
serialized through. -/
structure SerializedEngine where
  name : String
  castTag : TreeTypes
deriving DecidableEq

/-- A serialized `NSModel` record: discriminant, random-basis flag and matrix,
and the engine record. -/
structure SerializedModel where
  treeType : TreeTypes
  randomBasis : Bool
  q : Mat
  engine : SerializedEngine
deriving DecidableEq

/-- Save path of `NSModel::Serialize`: after writing `treeType`, `randomBasis`
and `q`, the switch on `treeType` performs a C-style cast of the abstract
`nSearch` pointer to the concrete type named by the discriminant and
serializes through that pointer.  No branch compares the discriminant with the
pointer's actual concrete type, and no branch can fail: the cast is silent. -/
def nsModelSerializeSave (nearest : Bool) (s : NSModelState) : SerializedModel :=
  { treeType := s.treeType
    randomBasis := s.randomBasis
    q := s.q
    engine :=
      match s.treeType with
      | .kdTree => ⟨nsModelName nearest, .kdTree⟩
      | .coverTree => ⟨nsModelName nearest, .coverTree⟩
      | .rTree => ⟨nsModelName nearest, .rTree⟩
      | .rStarTree => ⟨nsModelName nearest, .rStarTree⟩
      | .ballTree => ⟨nsModelName nearest, .ballTree⟩
      | .xTree => ⟨nsModelName nearest, .xTree⟩ }

/-- One iteration's worth of external randomness in the random-basis loop: the
outcome of `arma::qr` applied to `arma::randn(d, d)` — whether the
decomposition succeeded, and the factors it produced.  The randomness and the
QR routine are library facilities, so the loop is verified for every stream of
draws. -/
structure QRDraw (n : Nat) where
  ok : Bool
  q : Matrix (Fin n) (Fin n) ℚ
  r : Matrix (Fin n) (Fin n) ℚ

/-- The sign vector `rDiag` computed from the diagonal of `r`: `-1`, `1` or
`0` according to the sign of `r(i, i)`. -/
def rDiagSign {n : Nat} (r : Matrix (Fin n) (Fin n) ℚ) (i : Fin n) : ℚ :=
  if r i i < 0 then -1 else if 0 < r i i then 1 else 0

/-- One pass of the `while (true)` body in `NSModel::BuildModel`: when the QR
decomposition succeeded, multiply `q` by `diagmat(rDiag)` and exit the loop
(returning the corrected `q`) exactly when `det(q) >= 0`; otherwise iterate
again. -/
def randomBasisStep {n : Nat} (d : QRDraw n) :
    Option (Matrix (Fin n) (Fin n) ℚ) :=
  if d.ok then
    let q := d.q * Matrix.diagonal (rDiagSign d.r)
    if 0 ≤ q.det then some q else none
  else none

/-- The random-basis retry loop, consuming successive QR draws until one pass
exits; `none` means the supplied stream was exhausted with the loop still
running. -/
def randomBasisLoop {n : Nat} : List (QRDraw n) → Option (Matrix (Fin n) (Fin n) ℚ)
  | [] => none
  | d :: ds =>
      match randomBasisStep d with
      | some q => some q
      | none => randomBasisLoop ds

/-- The random-basis portion of `NSModel::BuildModel`: run the retry loop and,
once it exits with basis `q`, replace the reference set by `q * referenceSet`. -/
def buildModelBasis {n m : Nat} (draws : List (QRDraw n))
    (referenceSet : Matrix (Fin n) (Fin m) ℚ) :
    Option (Matrix (Fin n) (Fin n) ℚ × Matrix (Fin n) (Fin m) ℚ) :=
  (randomBasisLoop draws).map (fun q => (q, q * referenceSet))

/-- An event in the life of the engines owned by one `NSModel`: allocation of
a fresh engine (`new` in the `BuildModel` switch) or release of an owned one
(`delete nSearch`). -/
inductive OwnEvent where
  | alloc (id : Nat)
  | release (id : Nat)
deriving DecidableEq

/-- Ownership-relevant state of an `NSModel`: the id of the currently owned
engine, if any, and a counter distinguishing successive allocations. -/
structure OwnState where
  nSearch : Option Nat
  nextId : Nat
deriving DecidableEq

/-- Embedding of `NSModel::BuildModel` as it affects engine ownership: `if (nSearch) delete
nSearch;` first releases any previously owned engine, then the switch
allocates a fresh concrete engine which becomes the owned one. -/
def buildModelOwn (s : OwnState) : OwnState × List OwnEvent :=
  (⟨some s.nextId, s.nextId + 1⟩,
   (match s.nSearch with
    | some i => [OwnEvent.release i]
    | none => []) ++ [OwnEvent.alloc s.nextId])

/-- Embedding of `NSModel::~NSModel`: `if (nSearch) delete nSearch;`. -/
def nsModelDestruct (s : OwnState) : List OwnEvent :=
  match s.nSearch with
  | some i => [OwnEvent.release i]
  | none => []

/-- A freshly constructed `NSModel` owns no engine (`nSearch(NULL)`). -/
def ownInit : OwnState := ⟨none, 0⟩

/-- The state and event trace after `m` successive `BuildModel` calls on a
fresh model. -/
def runBuilds : Nat → OwnState × List OwnEvent
  | 0 => (ownInit, [])
  | m + 1 =>
      let p := runBuilds m
      let q := buildModelOwn p.1
      (q.1, p.2 ++ q.2)

/-- The full ownership trace of a model's lifetime: `m` `BuildModel` calls
followed by destruction. -/
def fullLifetime (m : Nat) : List OwnEvent :=
  (runBuilds m).2 ++ nsModelDestruct (runBuilds m).1

/-- Claim C1: On `NeighborSearchLeaf::Search(querySet, k, neighbors, distances)` in
dual-index mode (neither naive nor single mode), the wrapper builds a
transient query tree recording `oldFromNewQueries`, runs the dual traversal
into temporaries, and writes column `i` of the raw output into column
`oldFromNewQueries[i]` of the caller's neighbors and distances matrices; in
naive or single mode it delegates directly with no query-side remapping.  The
permutation hypotheses (no duplicates, in range, size matching the raw
output's column count) are the spec's Permutation Map invariant. -/
theorem leafSearch_unmaps_query_columns {Tree : Type} (o : DualOracle Tree)
    (naive singleMode : Bool) (leafSize k : Nat) (querySet : Mat) :
    ((naive = true ∨ singleMode = true) →
      leafSearch o naive singleMode leafSize querySet k = o.searchMat querySet k) ∧
    (naive = false → singleMode = false →
      ∀ (tr : Tree) (ofnq : List Nat) (nOut : IdxMat) (dOut : Mat),
        o.buildTree querySet leafSize = (tr, ofnq) →
        o.searchTree tr k = (nOut, dOut) →
        ofnq.Nodup →
        (∀ j ∈ ofnq, j < nOut.length) →
        (∀ j ∈ ofnq, j < dOut.length) →
        ofnq.length = nOut.length →
        ofnq.length = dOut.length →
        ∀ i, ∀ hi : i < ofnq.length,
          ((leafSearch o naive singleMode leafSize querySet k).1)[ofnq[i]]? = nOut[i]? ∧
          ((leafSearch o naive singleMode leafSize querySet k).2)[ofnq[i]]? = dOut[i]?) := by
  constructor
  · intro h
    rcases h with h | h <;> simp [leafSearch, h]
  · intro hn hs tr ofnq nOut dOut hbt hst hnd hr1 hr2 hl1 hl2 i hi
    simp only [leafSearch, hn, hs, hbt, hst, Bool.not_false, Bool.and_self, if_true]
    constructor
    · exact unmapLoop_getElem ofnq nOut (List.replicate nOut.length []) hnd hl1
        (by intro j hj; simpa using hr1 j hj) i hi
    · exact unmapLoop_getElem ofnq dOut (List.replicate dOut.length []) hnd hl2
        (by intro j hj; simpa using hr2 j hj) i hi

/-- Concrete oracle for the C1 witness: a two-column query set whose tree
build swaps the columns. -/
def witOracle : DualOracle Unit where
  buildTree := fun _ _ => ((), [1, 0])
  searchTree := fun _ _ => ([[10], [20]], [[1], [2]])
  searchMat := fun _ _ => ([[0]], [[0]])

/-- Witness for claim C1: the dual branch at a concrete oracle and query set. -/
theorem leafSearch_unmaps_query_columns_witness :
    ((leafSearch witOracle false false 20 [[5], [6]] 1).1)[(1 : Nat)]? = some [10] ∧
    ((leafSearch witOracle false false 20 [[5], [6]] 1).2)[(1 : Nat)]? = some [1] := by
  have h := (leafSearch_unmaps_query_columns witOracle false false 20 1 [[5], [6]]).2
      rfl rfl () [1, 0] [[10], [20]] [[1], [2]] rfl rfl (by decide) (by decide)
      (by decide) (by decide) (by decide) 0 (by decide)
  simpa using h

/-- Claim C9: the caller's query matrix object is unchanged by
`NeighborSearchLeaf::Search`: although the dual branch writes
`std::move(querySet)`, the parameter is a `const MatType&`, so overload
resolution selects the copying tree constructor and the caller's data is
never moved from or mutated, in every mode. -/
theorem leafSearchFrame_preserves_querySet {Tree : Type} (o : DualOracle Tree)
    (naive singleMode : Bool) (leafSize k : Nat) (querySet : CppMat) :
    (leafSearchFrame o naive singleMode leafSize querySet k).2 = querySet := by
  cases naive <;> cases singleMode <;>
    simp [leafSearchFrame, treeCtorTake]

/-- Claim C7: `NeighborSearchLeaf::Train` in non-naive mode builds an index tree
from the reference set with the configured leaf size, stores the resulting
permutation `oldFromNewReferences` in the engine and marks the engine as
owner of the tree; in naive mode it trains the engine directly on the raw
points, with no tree and the permutation left untouched. -/
theorem leafTrain_builds_and_owns {Tree : Type}
    (buildRef : Mat → Nat → Tree × List Nat) (leafSize : Nat)
    (s : LeafEngineState Tree) (referenceSet : Mat) :
    (s.naive = false →
      leafTrain buildRef leafSize s referenceSet =
        { s with referenceTree := some (buildRef referenceSet leafSize).1,
                 rawReference := none,
                 treeOwner := true,
                 oldFromNewReferences := (buildRef referenceSet leafSize).2 }) ∧
    (s.naive = true →
      leafTrain buildRef leafSize s referenceSet = nsTrainMat s referenceSet ∧
      (leafTrain buildRef leafSize s referenceSet).referenceTree = none ∧
      (leafTrain buildRef leafSize s referenceSet).oldFromNewReferences =
        s.oldFromNewReferences) := by
  constructor
  · intro h
    simp [leafTrain, nsTrainTree, h]
  · intro h
    simp [leafTrain, nsTrainMat, h]

/-- Witness for claim C7: training a fresh non-naive engine at a concrete reference set. -/
theorem leafTrain_builds_and_owns_witness :
    leafTrain (fun (_ : Mat) (_ : Nat) => ((), [0])) 20
        ⟨false, false, none, none, false, []⟩ [[1]] =
      ⟨false, false, some (), none, true, [0]⟩ := by
  have h := (leafTrain_builds_and_owns (fun (_ : Mat) (_ : Nat) => ((), [0])) 20
      ⟨false, false, none, none, false, []⟩ [[1]]).1 rfl
  simpa using h

/-- Claim C2: in a `SpillSearch` dual-tree search the query-side spill tree is
always built with `tau = 0`, whatever `tau` the object (and hence its
reference tree) uses; a self-search with `tau != 0` builds a fresh
zero-overlap query tree from the reference set instead of reusing the
reference tree; with `tau = 0` or in naive/single mode the self-search
delegates to the engine's plain self-search. -/
theorem spillSearch_query_tree_tau_zero (s : SpillSearchState) (querySet : Mat)
    (k : Nat) :
    (s.naive = false → s.singleMode = false →
      spillSearchQuery s querySet k = .searchTree ⟨querySet, 0⟩ k false) ∧
    (s.tau ≠ 0 → s.naive = false → s.singleMode = false →
      spillSearchSelf s k = .searchTree ⟨s.referenceSet, 0⟩ k true) ∧
    ((s.tau = 0 ∨ s.naive = true ∨ s.singleMode = true) →
      spillSearchSelf s k = .searchSelf k) := by
  refine ⟨fun hn hs => ?_, fun ht hn hs => ?_, fun h => ?_⟩
  · simp [spillSearchQuery, hn, hs]
  · simp [spillSearchSelf, ht, hn, hs]
  · rcases h with h | h | h <;> simp [spillSearchSelf, h]

/-- Witness for claim C2: a spill object with `tau = 1` builds zero-overlap query trees
in both overloads, and one with `tau = 0` takes the plain self-search path. -/
theorem spillSearch_query_tree_tau_zero_witness :
    spillSearchQuery ⟨false, false, 1, [[3]], none, false⟩ [[7]] 2 =
      .searchTree ⟨[[7]], 0⟩ 2 false ∧
    spillSearchSelf ⟨false, false, 1, [[3]], none, false⟩ 2 =
      .searchTree ⟨[[3]], 0⟩ 2 true ∧
    spillSearchSelf ⟨false, false, 0, [[3]], none, false⟩ 2 = .searchSelf 2 := by
  refine ⟨?_, ?_, ?_⟩
  · exact (spillSearch_query_tree_tau_zero ⟨false, false, 1, [[3]], none, false⟩
      [[7]] 2).1 rfl rfl
  · exact (spillSearch_query_tree_tau_zero ⟨false, false, 1, [[3]], none, false⟩
      [[7]] 2).2.1 one_ne_zero rfl rfl
  · exact (spillSearch_query_tree_tau_zero ⟨false, false, 0, [[3]], none, false⟩
      [[7]] 2).2.2 (Or.inl rfl)

/-- Claim C4: every one of the four `SpillSearch` constructors rejects `tau < 0`
with an `invalid_argument` before any training or tree building, and accepts
every `tau >= 0`. -/
theorem spillSearch_ctor_rejects_negative_tau (referenceSet : Mat)
    (referenceTree : SpillTree) (naive singleMode : Bool) (tau : ℚ) :
    (tau < 0 →
      spillMkFromMat referenceSet naive singleMode tau =
        .error "tau must be non-negative" ∧
      spillMkFromMatMove referenceSet naive singleMode tau =
        .error "tau must be non-negative" ∧
      spillMkFromTree referenceTree singleMode tau =
        .error "tau must be non-negative" ∧
      spillMkEmpty naive singleMode tau = .error "tau must be non-negative") ∧
    (0 ≤ tau →
      (∃ st, spillMkFromMat referenceSet naive singleMode tau = .ok st) ∧
      (∃ st, spillMkFromMatMove referenceSet naive singleMode tau = .ok st) ∧
      (∃ st, spillMkFromTree referenceTree singleMode tau = .ok st) ∧
      (∃ st, spillMkEmpty naive singleMode tau = .ok st)) := by
  constructor
  · intro h
    simp [spillMkFromMat, spillMkFromMatMove, spillMkFromTree, spillMkEmpty, h]
  · intro h
    have h' : ¬tau < 0 := not_lt.mpr h
    refine ⟨⟨spillTrainMat (spillInit naive singleMode tau) referenceSet, ?_⟩,
        ⟨spillTrainMat (spillInit naive singleMode tau) referenceSet, ?_⟩,
        ⟨spillTrainTree (spillInit false singleMode tau) referenceTree, ?_⟩,
        ⟨spillInit naive singleMode tau, ?_⟩⟩ <;>
      · simp only [spillMkFromMat, spillMkFromMatMove, spillMkFromTree,
          spillMkEmpty, if_neg h']

/-- Witness for claim C4: `tau = -1` is rejected by every constructor and `tau = 1` is
accepted by every constructor. -/
theorem spillSearch_ctor_rejects_negative_tau_witness :
    (spillMkEmpty false false (-1) = .error "tau must be non-negative" ∧
      spillMkFromMat [[1]] false false (-1) = .error "tau must be non-negative") ∧
    ((∃ st, spillMkEmpty false false 1 = .ok st) ∧
      ∃ st, spillMkFromMat [[1]] false false 1 = .ok st) := by
  have hneg := (spillSearch_ctor_rejects_negative_tau [[1]] ⟨[[1]], 0⟩ false false
      (-1)).1 (by norm_num)
  have hpos := (spillSearch_ctor_rejects_negative_tau [[1]] ⟨[[1]], 0⟩ false false
      1).2 (by norm_num)
  exact ⟨⟨hneg.2.2.2, hneg.1⟩, ⟨hpos.2.2.2, hpos.1⟩⟩

/-- Claim C3: on an `NSModel` whose engine pointer is still null (no `BuildModel`
yet), both `Search` overloads and the `Dataset` accessor raise the
not-initialized failure instead of returning a result. -/
theorem nsModel_uninitialized_errors (s : NSModelState) (querySet : Mat)
    (k : Nat) (h : s.nSearch = none) :
    (nsModelSearchQuery s querySet k).1 =
      .error "no neighbor search model initialized" ∧
    nsModelSearchSelf s k = .error "no neighbor search model initialized" ∧
    nsModelDataset s = .error "no neighbor search model initialized" := by
  refine ⟨?_, ?_, ?_⟩ <;>
    simp [nsModelSearchQuery, nsModelSearchSelf, nsModelDataset, h]

/-- Witness for claim C3: a freshly constructed model errors on both searches and on
`Dataset`. -/
theorem nsModel_uninitialized_errors_witness :
    (nsModelSearchQuery ⟨.kdTree, false, [], none⟩ [[1]] 1).1 =
      .error "no neighbor search model initialized" ∧
    nsModelSearchSelf ⟨.kdTree, false, [], none⟩ 1 =
      .error "no neighbor search model initialized" ∧
    nsModelDataset ⟨.kdTree, false, [], none⟩ =
      .error "no neighbor search model initialized" :=
  nsModel_uninitialized_errors ⟨.kdTree, false, [], none⟩ [[1]] 1 rfl

/-- Claim C10: `NSModel::Search(querySet, k, ...)` applies the random-basis
transform before checking the engine pointer: with `randomBasis` set and no
model built, the caller's query matrix is overwritten with `q * querySet`
(`q` being the default-constructed empty basis) and only then is the
not-initialized failure raised, so the error path is not atomic with respect
to the caller's query data. -/
theorem nsModelSearchQuery_transforms_before_check (s : NSModelState)
    (querySet : Mat) (k : Nat) (hrb : s.randomBasis = true)
    (hns : s.nSearch = none) :
    nsModelSearchQuery s querySet k =
      (.error "no neighbor search model initialized", matMul s.q querySet) := by
  simp [nsModelSearchQuery, hrb, hns]

/-- Witness for claim C10: at a fresh random-basis model with `q` empty and a one-point
query set, the failure is raised and the caller's matrix has been overwritten
with an empty-product column, which differs from the original. -/
theorem nsModelSearchQuery_transforms_before_check_witness :
    nsModelSearchQuery ⟨.kdTree, true, [], none⟩ [[1]] 1 =
      (.error "no neighbor search model initialized", matMul [] [[1]]) ∧
    matMul [] [[1]] ≠ [[1]] :=
  ⟨nsModelSearchQuery_transforms_before_check ⟨.kdTree, true, [], none⟩ [[1]] 1
      rfl rfl,
    by decide⟩

/-- Engine whose actual concrete type is the kd-tree wrapper, used as the C5
failing input. -/
def mismatchEngine : EngineOps :=
  ⟨.kdTree, [], fun _ _ => ([], []), fun _ => ([], [])⟩

/-- Model state whose discriminant says cover tree while the abstract engine
pointer actually points at the kd-tree wrapper (the serialize switch keys the
cast on the discriminant alone). -/
def mismatchModel : NSModelState := ⟨.coverTree, false, [], some mismatchEngine⟩

/-- Claim C5: at a state where the persisted discriminant (`COVER_TREE`) disagrees
with the engine's actual concrete type (kd-tree wrapper), the save path of
`NSModel::Serialize` silently casts to the discriminant's type and returns a
record — no mismatch is detected and no failure is surfaced, contradicting the
required SerializationTypeMismatch behavior (the source's own TODO admits the
defect). -/
theorem nsModelSerializeSave_silent_cast :
    mismatchEngine.tag = .kdTree ∧
    mismatchModel.treeType = .coverTree ∧
    (nsModelSerializeSave true mismatchModel).engine.castTag = .coverTree ∧
    (nsModelSerializeSave true mismatchModel).engine.castTag ≠
      mismatchEngine.tag := by
  refine ⟨rfl, rfl, rfl, ?_⟩
  simp [nsModelSerializeSave, mismatchModel, mismatchEngine]

theorem rDiagSign_mul_nonneg {n : Nat} (r : Matrix (Fin n) (Fin n) ℚ)
    (i : Fin n) : 0 ≤ rDiagSign r i * r i i := by
  unfold rDiagSign
  split_ifs with h1 h2 <;> nlinarith

theorem randomBasisStep_spec {n : Nat} (d : QRDraw n)
    (q : Matrix (Fin n) (Fin n) ℚ) (h : randomBasisStep d = some q) :
    d.ok = true ∧ 0 ≤ q.det ∧ q = d.q * Matrix.diagonal (rDiagSign d.r) := by
  unfold randomBasisStep at h
  by_cases hok : d.ok
  · simp only [hok, if_true] at h
    split_ifs at h with hdet
    · cases h
      exact ⟨hok, hdet, rfl⟩
  · simp [hok] at h

theorem randomBasisLoop_spec {n : Nat} (draws : List (QRDraw n))
    (q : Matrix (Fin n) (Fin n) ℚ) (h : randomBasisLoop draws = some q) :
    0 ≤ q.det ∧
    ∃ d ∈ draws, d.ok = true ∧ q = d.q * Matrix.diagonal (rDiagSign d.r) := by
  induction draws with
  | nil => simp [randomBasisLoop] at h
  | cons d ds ih =>
      simp only [randomBasisLoop] at h
      rcases hstep : randomBasisStep d with _ | q'
      · rw [hstep] at h
        obtain ⟨hdet, d', hd', hform⟩ := ih h
        exact ⟨hdet, d', List.mem_cons_of_mem _ hd', hform⟩
      · rw [hstep] at h
        obtain rfl : q' = q := Option.some.inj h
        obtain ⟨hok, hdet, hform⟩ := randomBasisStep_spec d q' hstep
        exact ⟨hdet, d, List.mem_cons_self d ds, hok, hform⟩

/-- Claim C6: when the random-basis loop of `NSModel::BuildModel` exits, the basis
it produced came from a successful QR draw, equals the orthogonal factor
multiplied by the sign pattern of the triangular factor's diagonal (which
makes the corrected triangular diagonal non-negative), has non-negative
determinant, and only then is the reference set replaced by basis times
reference set. -/
theorem buildModelBasis_det_nonneg {n m : Nat} (draws : List (QRDraw n))
    (referenceSet : Matrix (Fin n) (Fin m) ℚ)
    (q : Matrix (Fin n) (Fin n) ℚ) (ref' : Matrix (Fin n) (Fin m) ℚ)
    (h : buildModelBasis draws referenceSet = some (q, ref')) :
    0 ≤ q.det ∧ ref' = q * referenceSet ∧
    ∃ d ∈ draws, d.ok = true ∧ q = d.q * Matrix.diagonal (rDiagSign d.r) ∧
      ∀ i, 0 ≤ rDiagSign d.r i * d.r i i := by
  unfold buildModelBasis at h
  rcases hloop : randomBasisLoop draws with _ | q'
  · rw [hloop] at h; cases h
  · rw [hloop, Option.map_some'] at h
    have hpair : (q', q' * referenceSet) = (q, ref') := Option.some.inj h
    have hq : q' = q := congrArg Prod.fst hpair
    subst hq
    have href : ref' = q' * referenceSet := (congrArg Prod.snd hpair).symm
    obtain ⟨hdet, d, hd, hok, hform⟩ := randomBasisLoop_spec draws q' hloop
    exact ⟨hdet, href, d, hd, hok, hform, fun i => rDiagSign_mul_nonneg d.r i⟩

/-- QR draw used for the C6 witness: a successful decomposition of the 1×1
identity into identity factors. -/
def witDraw : QRDraw 1 := ⟨true, 1, 1⟩

/-- The corrected basis the loop produces from `witDraw`. -/
def witBasis : Matrix (Fin 1) (Fin 1) ℚ :=
  witDraw.q * Matrix.diagonal (rDiagSign witDraw.r)

/-- Witness for claim C6: on the single-draw stream `[witDraw]` the loop exits at once
and the produced basis has non-negative determinant. -/
theorem buildModelBasis_det_nonneg_witness :
    buildModelBasis [witDraw] (1 : Matrix (Fin 1) (Fin 1) ℚ) =
      some (witBasis, witBasis * 1) ∧ 0 ≤ witBasis.det := by
  have h1 : witBasis = Matrix.diagonal (rDiagSign witDraw.r) := one_mul _
  have h2 : witDraw.r 0 0 = 1 := Matrix.one_apply_eq 0
  have hdet : witBasis.det = 1 := by
    rw [h1, Matrix.det_diagonal, Fin.prod_univ_one]
    simp only [rDiagSign, h2]
    norm_num
  have hstep : randomBasisStep witDraw = some witBasis := by
    unfold randomBasisStep
    rw [if_pos (show witDraw.ok = true from rfl), if_pos]
    · rw [show witDraw.q * Matrix.diagonal (rDiagSign witDraw.r) = witBasis from
        rfl]
    · rw [show witDraw.q * Matrix.diagonal (rDiagSign witDraw.r) = witBasis from
        rfl, hdet]
      norm_num
  have hloop : randomBasisLoop [witDraw] = some witBasis := by
    simp only [randomBasisLoop, hstep]
  have heq : buildModelBasis [witDraw] (1 : Matrix (Fin 1) (Fin 1) ℚ) =
      some (witBasis, witBasis * 1) := by
    simp only [buildModelBasis, hloop, Option.map_some']
  exact ⟨heq, (buildModelBasis_det_nonneg [witDraw] 1 witBasis (witBasis * 1)
    heq).1⟩

theorem runBuilds_state (m : Nat) :
    (runBuilds m).1 = ⟨if m = 0 then none else some (m - 1), m⟩ := by
  induction m with
  | zero => rfl
  | succ m ih => simp [runBuilds, buildModelOwn, ih]

theorem runBuilds_count_alloc (m id : Nat) :
    (runBuilds m).2.count (OwnEvent.alloc id) = if id < m then 1 else 0 := by
  induction m with
  | zero => simp [runBuilds]
  | succ m ih =>
      simp only [runBuilds, List.count_append, ih, runBuilds_state,
        buildModelOwn]
      rcases Nat.eq_zero_or_pos m with hm | hm
      · subst hm
        by_cases hid : id = 0 <;> simp [hid, List.count_singleton]
      · have hm' : ¬m = 0 := Nat.pos_iff_ne_zero.mp hm
        simp only [hm', if_false, List.count_append]
        by_cases hid : id = m
        · subst hid
          simp [List.count_singleton, List.count_cons, Nat.lt_irrefl,
            Nat.lt_succ_self]
        · have : (OwnEvent.alloc m) ≠ (OwnEvent.alloc id) := by
            simp [Ne, OwnEvent.alloc.injEq]; omega
          simp only [List.count_singleton, List.count_cons]
          have hcases : (id < m ∧ id < m + 1) ∨ (¬id < m ∧ ¬id < m + 1) := by
            omega
          rcases hcases with ⟨h1, h2⟩ | ⟨h1, h2⟩ <;>
            simp [h1, h2, beq_iff_eq, hid, OwnEvent.release.injEq] <;> omega

theorem runBuilds_count_release (m id : Nat) :
    (runBuilds m).2.count (OwnEvent.release id) = if id + 1 < m then 1 else 0 := by
  induction m with
  | zero => simp [runBuilds]
  | succ m ih =>
      simp only [runBuilds, List.count_append, ih, runBuilds_state,
        buildModelOwn]
      rcases Nat.eq_zero_or_pos m with hm | hm
      · subst hm
        simp
      · have hm' : ¬m = 0 := Nat.pos_iff_ne_zero.mp hm
        simp only [hm', if_false, List.count_append, List.count_cons,
          List.count_nil, List.count_singleton]
        by_cases hid : id = m - 1
        · subst hid
          have h1 : ¬(m - 1 + 1 < m) := by omega
          have h2 : m - 1 + 1 < m + 1 := by omega
          simp [h1, h2]
        · have h3 : (OwnEvent.release (m - 1) == OwnEvent.release id) = false := by
            simp [OwnEvent.release.injEq]
            omega
          have h4 : (OwnEvent.alloc m == OwnEvent.release id) = false := by
            simp
          have h5 : (id + 1 < m) = (id + 1 < m + 1) := by
            simp only [eq_iff_iff]
            omega
          simp [h3, h4, h5]

/-- Claim C8: over a model lifetime consisting of `m` `BuildModel` calls followed by
destruction, every engine id is allocated at most once, and is released
exactly as many times as it is allocated: each owned engine is released
exactly once, on replacement or on destruction. -/
theorem nsModel_engine_released_once (m id : Nat) :
    (fullLifetime m).count (OwnEvent.alloc id) = (if id < m then 1 else 0) ∧
    (fullLifetime m).count (OwnEvent.release id) =
      (fullLifetime m).count (OwnEvent.alloc id) := by
  unfold fullLifetime nsModelDestruct
  rw [List.count_append, List.count_append, runBuilds_state]
  rcases Nat.eq_zero_or_pos m with hm | hm
  · subst hm
    simp [runBuilds]
  · have hm' : ¬m = 0 := Nat.pos_iff_ne_zero.mp hm
    simp only [hm', if_false, runBuilds_count_alloc, runBuilds_count_release,
      List.count_cons, List.count_nil]
    constructor
    · have h4 : (OwnEvent.release (m - 1) == OwnEvent.alloc id) = false := by
        simp
      simp [h4]
    · by_cases hid : id = m - 1
      · subst hid
        have h1 : ¬(m - 1 + 1 < m) := by omega
        have h2 : m - 1 < m := by omega
        simp [h1, h2]
      · have h3 : (OwnEvent.release (m - 1) == OwnEvent.release id) = false := by
          simp [OwnEvent.release.injEq]
          omega
        have h5 : (id + 1 < m) = (id < m) := by
          simp only [eq_iff_iff]
          omega
        simp [h3, h5]

end MlpackNS
